import Mathlib

/-!
Verification of the Renju rules engine (`src/web-app/renju.js`).

The JavaScript module is embedded shallowly:

* a board cell is one of `"black"`, `"white"`, `"removed"`, `null`; two extra
  values appear at runtime — the number `0` written by `getTouchingCells` when
  masking a neighbourhood, and JavaScript `undefined` produced by reading past
  the end of an array row — so `Cell` has six constructors;
* a board is a dense rectangular list of rows (`board[row][column]`, the outer
  index bounded by the constructed `width`, the inner by `height`); JavaScript
  sparse-array corner cases (writing far past the end of a row) are outside the
  model, which treats such writes as invisible, matching how every scanning
  function in the module reads cells;
* reading `board[i][j]` with `i` outside the outer list throws a `TypeError`
  in JavaScript, while an in-range `i` with out-of-range `j` yields
  `undefined`; operations that can throw return `Except JsErr`;
* the unbounded rotation loop of `checkMoveThree` repeats its state after four
  board rotations, so it is embedded with fuel 4 and a distinguished
  `JsErr.diverge` outcome for the (unreachable in play) nonterminating case.
-/

/-- The values a board cell can hold at runtime. `empty` is JavaScript `null`,
`zero` is the number `0` used by `getTouchingCells` to mask cells, and `undef`
is JavaScript `undefined` (read past the end of a row). -/
inductive Cell where
  | black
  | white
  | removed
  | empty
  | zero
  | undef
deriving DecidableEq, Repr

/-- A board: the outer list is indexed by `row`, the inner by `column`. -/
abbrev Board := List (List Cell)

/-- One logged move, as in the `Renju.move` typedef: `row = -1` and
`column = -1` encode a pass, `removed = true` a removal action. (The source
also stores never-read `doubleThree`/`doubleFour` flags on pass and removal
entries; they are omitted because no code inspects them.) -/
structure Move where
  playerColour : Cell
  row : Int
  column : Int
  removed : Bool
deriving DecidableEq, Repr

/-- The `gameState` record: board plus ordered move log. -/
structure GameState where
  board : Board
  moves : List Move
deriving DecidableEq, Repr

/-- Result of `Renju.checkWin` (the `checkedEndingConditions` typedef). -/
structure CheckResult where
  valid : Bool
  reason : String
deriving DecidableEq, Repr

/-- Result of an attempt operation (the `attemptedMove` typedef): the new
state is present exactly when the attempt was valid. -/
structure AttemptResult where
  gameState : Option GameState
  valid : Bool
deriving DecidableEq, Repr

/-- Abnormal JavaScript outcomes: a thrown `TypeError`, or nontermination of
the rotation loop in `checkMoveThree`. -/
inductive JsErr where
  | typeError
  | diverge
deriving DecidableEq, Repr

/-- JavaScript array indexing `l[i]`: `none` models `undefined` (negative or
too-large index). -/
def jsIndex (l : List α) (i : Int) : Option α :=
  if i < 0 then none else l[i.toNat]?

/-- Reading `board[i][j]`: throws when `board[i]` is `undefined`, otherwise
yields the cell (or `none` for an `undefined` cell when `j` is out of range). -/
def readCell (b : Board) (i j : Int) : Except JsErr (Option Cell) :=
  match jsIndex b i with
  | none => .error .typeError
  | some row => .ok (jsIndex row j)

/-- The effect of the assignment `board[i][j] = v` on the visible cells of a
dense board, given that row `i` exists: an out-of-range column leaves every
visible cell unchanged. -/
def jsUpdate (b : Board) (i j : Int) (v : Cell) : Board :=
  if 0 ≤ i ∧ 0 ≤ j then
    b.set i.toNat ((b[i.toNat]?.getD []).set j.toNat v)
  else b

/-- The assignment `board[i][j] = v`: throws a `TypeError` when `board[i]` is
`undefined`, otherwise updates the board. -/
def writeCell (b : Board) (i j : Int) (v : Cell) : Except JsErr Board :=
  if 0 ≤ i ∧ i.toNat < b.length then .ok (jsUpdate b i j v)
  else .error .typeError

/-- `createBoard`: `none` models the thrown construction error for an even
dimension; otherwise a `width`-by-`height` grid filled with `input`. -/
def createBoard (width height : Nat) (input : Cell) : Option Board :=
  if width % 2 = 0 ∨ height % 2 = 0 then none
  else some (List.replicate width (List.replicate height input))

/-- `Renju.initiateGame`: a fresh game state (propagating the construction
error of `createBoard`). -/
def initiateGame (width height : Nat) (input : Cell) : Option GameState :=
  (createBoard width height input).map (fun b => ⟨b, []⟩)

/-- `Renju.movesMade`. -/
def movesMade (gs : GameState) : Nat :=
  gs.moves.length

/-- `Renju.nextMoveNumber`. -/
def nextMoveNumber (gs : GameState) : Nat :=
  movesMade gs + 1

/-- `getBoardColumnNumber` (the outer length, i.e. the constructed width). -/
def getBoardColumnNumber (board : Board) : Nat :=
  board.length

/-- `getBoardRowNumber` (`board[0].length`, i.e. the constructed height). -/
def getBoardRowNumber (board : Board) : Nat :=
  (board.head?.getD []).length

/-- `half`. -/
def half (number : Nat) : Nat :=
  number / 2

/-- `isNextTo`: Chebyshev distance at most one. -/
def isNextTo (row1 column1 row2 column2 : Int) : Bool :=
  (column1 - column2).natAbs ≤ 1 && (row1 - row2).natAbs ≤ 1

/-- `Renju.colourToMove`. -/
def colourToMove (gs : GameState) : Cell :=
  let m := movesMade gs
  if m ≤ 4 ∨ 7 ≤ m then
    if m % 2 = 0 then Cell.black else Cell.white
  else
    if m % 2 = 0 then Cell.white else Cell.black

/-- `checkNormalMove`: it must be this colour's turn. -/
def checkNormalMove (playerColour : Cell) (gs : GameState) : Bool :=
  decide (playerColour = colourToMove gs)

/-- `rotateBoard`: `board[0].map((_, i) => board.map(row => row[i]).reverse())`.
A missing cell of a ragged row reads as `undef`; the empty board (on which the
source would throw, but which `createBoard` can never produce) maps to `[]`. -/
def rotateBoard (board : Board) : Board :=
  match board with
  | [] => []
  | r0 :: _ =>
    (List.range r0.length).map
      (fun index => (board.map (fun row => (row[index]?).getD Cell.undef)).reverse)

/-- `getBoardSection`: `slice(startingRow, endingRow + 1)` of the rows, then
the analogous slice of each row. (Faithful for the non-negative slice bounds
that every caller on a board of width and height at least 5 produces.) -/
def getBoardSection (startingRow endingRow startingColumn endingColumn : Nat)
    (board : Board) : Board :=
  ((board.drop startingRow).take (endingRow + 1 - startingRow)).map
    (fun row => (row.drop startingColumn).take (endingColumn + 1 - startingColumn))

/-- `movesMadeFromBoard`: the number of cells that are not `null`. -/
def movesMadeFromBoard (board : Board) : Nat :=
  (board.flatten.filter (fun x => x ≠ Cell.empty)).length

/-- `isBoardFull`: no cell is `null`. -/
def isBoardFull (board : Board) : Bool :=
  board.all (fun row => row.all (fun x => x ≠ Cell.empty))

/-- Loop state of `countTouchingInARow`: the `counter`, `startingIndex`,
`largestCounter` and `previousValue` variables plus the `forEach` index. The
initial `previousValue` is the number `0`, i.e. `Cell.zero`. -/
structure RunScan where
  counter : Nat
  startingIndex : Nat
  largestCounter : Nat
  previousValue : Cell
  index : Nat
deriving Repr

/-- One iteration of the `forEach` body of `countTouchingInARow`. -/
def runStep (playerColour : Cell) (s : RunScan) (value : Cell) : RunScan :=
  let counter := if value = playerColour ∧ value = s.previousValue
                 then s.counter + 1 else 1
  if s.largestCounter < counter then
    ⟨counter, s.index + 1 - counter, counter, value, s.index + 1⟩
  else
    ⟨counter, s.startingIndex, s.largestCounter, value, s.index + 1⟩

/-- `countTouchingInARow`: the index range of (the first occurrence of) the
longest run of `playerColour` in the line; a line without such a run yields a
singleton range. Only the length of the result is ever consumed. -/
def countTouchingInARow (playerColour : Cell) (row : List Cell) : List Nat :=
  let s := row.foldl (runStep playerColour) ⟨1, 0, 1, Cell.zero, 0⟩
  List.range' s.startingIndex s.largestCounter

/-- `countHorizontalTouching`: the per-row longest-run lengths, kept when at
least 2. -/
def countHorizontalTouching (playerColour : Cell) (board : Board) : List Nat :=
  ((board.map (fun row => countTouchingInARow playerColour row)).map
    List.length).filter (fun x => 2 ≤ x)

/-- `countVerticalTouching`: the horizontal scan of the rotated board. -/
def countVerticalTouching (playerColour : Cell) (board : Board) : List Nat :=
  countHorizontalTouching playerColour (rotateBoard board)

/-- The `result[j + i].push(element)` step shared by the two diagonal shears:
extends the accumulator with empty lines as needed (for the rectangular
boards the engine builds, the touched index is never beyond the next free
slot, so no holes arise). -/
def pushAt (res : List (List Cell)) (d : Nat) (v : Cell) : List (List Cell) :=
  let res := if d < res.length then res
             else res ++ List.replicate (d + 1 - res.length) []
  res.set d ((res[d]?.getD []) ++ [v])

/-- The inner loop of the diagonal shears: push every element of row `i` onto
diagonal line `j + i`. -/
def diagFoldRow (i : Nat) (row : List Cell) (result : List (List Cell)) :
    List (List Cell) :=
  row.enum.foldl (fun res jv => pushAt res (jv.1 + i) jv.2) result

/-- `changeDiagonalToHorizontalUp`: group cells with constant `row + column`,
scanning rows top to bottom. -/
def changeDiagonalToHorizontalUp (board : Board) : List (List Cell) :=
  board.enum.foldl (fun res ir => diagFoldRow ir.1 ir.2 res) []

/-- `changeDiagonalToHorizontalDown`: the same grouping after reversing the
row order (`row = board[numRows - 1 - i]`). -/
def changeDiagonalToHorizontalDown (board : Board) : List (List Cell) :=
  board.reverse.enum.foldl (fun res ir => diagFoldRow ir.1 ir.2 res) []

/-- `changeDiagonalToHorizontal`: both shears concatenated. -/
def changeDiagonalToHorizontal (board : Board) : List (List Cell) :=
  changeDiagonalToHorizontalUp board ++ changeDiagonalToHorizontalDown board

/-- `countDiagonalTouching`. -/
def countDiagonalTouching (playerColour : Cell) (board : Board) : List Nat :=
  countHorizontalTouching playerColour (changeDiagonalToHorizontal board)

/-- `totalNumberOfTouchingPieces`: vertical, horizontal and diagonal
longest-run lengths (each at least 2), concatenated in source order. -/
def totalNumberOfTouchingPieces (playerColour : Cell) (board : Board) :
    List Nat :=
  countVerticalTouching playerColour board ++
    countHorizontalTouching playerColour board ++
      countDiagonalTouching playerColour board

/-- `checkIfFiveInARow`: some scanned line's longest run has length exactly 5. -/
def checkIfFiveInARow (playerColour : Cell) (board : Board) : Bool :=
  decide (5 ∈ totalNumberOfTouchingPieces playerColour board)

/-- `checkOverline`: some scanned line's longest run is longer than 5. -/
def checkOverline (playerColour : Cell) (board : Board) : Bool :=
  (totalNumberOfTouchingPieces playerColour board).any (fun x => decide (5 < x))

/-- `pad2DArray`: a `(rows + 2p) × (board[0].length + 2p)` grid of `padValue`
with the board copied into the middle (a missing cell of a ragged row copies
JavaScript `undefined`). -/
def pad2DArray (padding : Nat) (padValue : Cell) (board : Board) : Board :=
  let h := (board.head?.getD []).length
  (List.range (board.length + 2 * padding)).map (fun i =>
    (List.range (h + 2 * padding)).map (fun j =>
      if padding ≤ i ∧ i < padding + board.length ∧
          padding ≤ j ∧ j < padding + h then
        ((board[i - padding]?.getD [])[j - padding]?).getD Cell.undef
      else padValue))

/-- `getCellsAround`: the `(2n+1) × (2n+1)` window of the `null`-padded board
whose top-left corner sits at `(rowIndex, columnIndex)` of the padded board,
i.e. the window centred on that cell of the original board. -/
def getCellsAround (rowIndex columnIndex number : Nat) (board : Board) : Board :=
  getBoardSection rowIndex (rowIndex + 2 * number) columnIndex
    (columnIndex + 2 * number) (pad2DArray number Cell.empty board)

/-- `getTouchingCells`: keep the cells whose value equals the centre cell's
value, replace every other cell by the number `0`. (The source tests
`=== middleValue || === board[middleRow][middleCol]`, the same comparison
twice.) -/
def getTouchingCells (board : Board) : Board :=
  let numRows := board.length
  let numCols := (board.head?.getD []).length
  let middleValue := ((board[numRows / 2]?.getD [])[numCols / 2]?).getD Cell.undef
  (List.range numRows).map (fun i =>
    (List.range numCols).map (fun j =>
      let v := ((board[i]?.getD [])[j]?).getD Cell.undef
      if v = middleValue then v else Cell.zero))

/-- `blackMakesDoubleThree`: some cell's masked radius-2 window shows at least
two scanned lines whose longest black run is exactly 3. -/
def blackMakesDoubleThree (board : Board) : Bool :=
  board.enum.any (fun ir =>
    (List.range ir.2.length).any (fun columnIndex =>
      let cellsAround := getCellsAround ir.1 columnIndex 2 board
      let touchingCells := getTouchingCells cellsAround
      let n := totalNumberOfTouchingPieces Cell.black touchingCells
      decide (2 ≤ (n.filter (fun x => x = 3)).length)))

/-- `blackMakesDoubleFour`: some cell's masked radius-3 window shows at least
two scanned lines whose longest black run is exactly 4. -/
def blackMakesDoubleFour (board : Board) : Bool :=
  board.enum.any (fun ir =>
    (List.range ir.2.length).any (fun columnIndex =>
      let cellsAround := getCellsAround ir.1 columnIndex 3 board
      let touchingCells := getTouchingCells cellsAround
      let n := totalNumberOfTouchingPieces Cell.black touchingCells
      decide (2 ≤ (n.filter (fun x => x = 4)).length)))

/-- The `while` loop of `checkMoveThree`. Its state repeats once four
rotations have been applied (four rotations restore any rectangular board and
the loop reads the same two fixed positions each time), so fuel 4 is exact:
exhausted fuel is precisely the nonterminating JavaScript loop. Each body run
reads `newBoard[middleRow][middleColumn - 1]` and
`newBoard[middleRow - 1][middleColumn - 1]` from the current board and then
rotates it. -/
def moveThreeLoop (middleRow middleColumn : Nat) (fuel : Nat) (b : Board)
    (above across : Option Cell) (wasRotated : Bool) :
    Except JsErr (Board × Option Cell × Option Cell × Bool) :=
  if above = some Cell.white ∨ across = some Cell.white then
    .ok (b, above, across, wasRotated)
  else
    match fuel with
    | 0 => .error .diverge
    | f + 1 => do
      let above2 ← readCell b (middleRow : Int) ((middleColumn : Int) - 1)
      let across2 ← readCell b ((middleRow : Int) - 1) ((middleColumn : Int) - 1)
      moveThreeLoop middleRow middleColumn f (rotateBoard b) above2 across2 true

/-- `checkMoveThree`: the third-move shape rule. White is rejected outright;
for Black the candidate is placed, the board is rotated until White's second
stone sits above or diagonally across the middle, and the stone count of the
appropriate neighbourhood (plus, in the diagonal case, two extra corner
cells) must be exactly 3. -/
def checkMoveThree (playerColour : Cell) (row column : Int) (board : Board) :
    Except JsErr Bool :=
  if playerColour = Cell.white then .ok false
  else do
    let newBoard ← writeCell board row column playerColour
    let middleColumn := half (getBoardColumnNumber newBoard)
    let middleRow := half (getBoardRowNumber newBoard)
    let above0 ← readCell newBoard ((middleRow : Int) - 1) (middleColumn : Int)
    let across0 ← readCell newBoard ((middleRow : Int) - 1) ((middleColumn : Int) - 1)
    let st ← moveThreeLoop middleRow middleColumn 4 newBoard above0 across0 false
    let b2 := st.1
    let above := st.2.1
    let across := st.2.2.1
    let wasRotated := st.2.2.2
    let b3 := if ¬ wasRotated ∧ across = some Cell.white then rotateBoard b2 else b2
    if above = some Cell.white then
      let sec := getBoardSection (middleRow - 2) (middleRow + 2) middleColumn
        (middleColumn + 2) b3
      .ok (decide (movesMadeFromBoard sec = 3))
    else if across = some Cell.white then
      let sec1 := getBoardSection middleRow (middleRow + 2) middleColumn
        (middleColumn + 2) b3
      let sec2 := getBoardSection (middleRow - 1) (middleRow - 1)
        (middleColumn + 1) (middleColumn + 2) b3
      let sec3 := getBoardSection (middleRow + 1) (middleRow + 2)
        (middleColumn - 1) (middleColumn - 1) b3
      let cA ← readCell b3 ((middleRow : Int) + 2) ((middleColumn : Int) - 2)
      let cB ← readCell b3 ((middleRow : Int) - 2) ((middleColumn : Int) + 2)
      .ok (decide (movesMadeFromBoard
        (sec1 ++ sec2 ++ sec3 ++ [[cA.getD Cell.undef, cB.getD Cell.undef]]) = 3))
    else .ok false

/-- `checkMoveSeven`. The source's `R.update(row, R.update(column, colour))`
replaces the whole row `row` (its caller guarantees the index is in range) by
the curried function `R.update(column, colour)` — a single element that is
neither `null` nor `"removed"`, modelled by `Cell.zero`; `column` is otherwise
unused. The board must already contain a `"removed"` marker and then flatten
to exactly 7 non-`null` values. -/
def checkMoveSeven (playerColour : Cell) (row : Int) (column : Int)
    (board : Board) : Bool :=
  if playerColour ≠ Cell.white then false
  else
    let updated := if 0 ≤ row ∧ row.toNat < board.length
                   then board.set row.toNat [Cell.zero] else board
    let temporaryBoard := updated.flatten
    if Cell.removed ∈ temporaryBoard then
      decide ((temporaryBoard.filter (fun x => x ≠ Cell.empty)).length = 7)
    else false

/-- `Renju.isMoveValid`. The initial `board[row][column]` read throws on an
out-of-range row; a defined cell must be `null` or `"removed"`; then the
move-number-indexed opening rules apply, falling back to the turn rule. -/
def isMoveValid (playerColour : Cell) (row column : Int) (gs : GameState) :
    Except JsErr Bool :=
  match jsIndex gs.board row with
  | none => .error .typeError
  | some boardRow =>
    match jsIndex boardRow column with
    | none => .ok false
    | some cell =>
      if cell ≠ Cell.empty ∧ cell ≠ Cell.removed then .ok false
      else
        let columnMiddle := half (getBoardColumnNumber gs.board)
        let rowMiddle := half (getBoardRowNumber gs.board)
        match nextMoveNumber gs with
        | 1 => .ok (decide (column = (columnMiddle : Int) ∧
                 row = (rowMiddle : Int) ∧ playerColour = Cell.black))
        | 2 => .ok (isNextTo (rowMiddle : Int) (columnMiddle : Int) row column
                 && decide (playerColour = Cell.white))
        | 3 => checkMoveThree playerColour row column gs.board
        | 4 => .ok (decide (playerColour = Cell.white))
        | 5 => .ok (decide (playerColour = Cell.black))
        | 6 => .ok (decide (playerColour = Cell.black))
        | 7 => .ok (checkMoveSeven playerColour row column gs.board)
        | _ => .ok (checkNormalMove playerColour gs)

/-- `Renju.attemptPly`: on a valid move, append the placement and write the
colour onto the cell of a fresh board; otherwise report only invalidity. -/
def attemptPly (playerColour : Cell) (row column : Int) (gs : GameState) :
    Except JsErr AttemptResult := do
  let valid ← isMoveValid playerColour row column gs
  if valid then
    let board ← writeCell gs.board row column playerColour
    .ok ⟨some ⟨board, gs.moves ++ [⟨playerColour, row, column, false⟩]⟩, true⟩
  else
    .ok ⟨none, false⟩

/-- `Renju.attemptRemove`: only with exactly 6 moves made and a target equal
to the cell of the last or second-to-last logged move; then the cell is marked
`"removed"` (throwing when the matched entry's row is not a real row index,
as for a pass) and a removal move with colour black is appended. -/
def attemptRemove (row column : Int) (gs : GameState) :
    Except JsErr AttemptResult :=
  if movesMade gs ≠ 6 then .ok ⟨none, false⟩
  else
    match gs.moves[gs.moves.length - 1]?, gs.moves[gs.moves.length - 2]? with
    | some previousMove, some secondPreviousMove =>
      if ¬ ((previousMove.row = row ∧ previousMove.column = column) ∨
            (secondPreviousMove.row = row ∧ secondPreviousMove.column = column))
      then .ok ⟨none, false⟩
      else do
        let board ← writeCell gs.board row column Cell.removed
        .ok ⟨some ⟨board, gs.moves ++ [⟨Cell.black, row, column, true⟩]⟩, true⟩
    | _, _ => .ok ⟨none, false⟩

/-- `Renju.attemptPass`: needs at least 3 moves made and the right colour;
appends a pass move and keeps the board. Never throws. -/
def attemptPass (playerColour : Cell) (gs : GameState) : AttemptResult :=
  if movesMade gs < 3 then ⟨none, false⟩
  else if ¬ checkNormalMove playerColour gs then ⟨none, false⟩
  else ⟨some ⟨gs.board, gs.moves ++ [⟨playerColour, -1, -1, false⟩]⟩, true⟩

/-- `removeLastMove`: pop the last logged move and clear its cell to `null`.
Throws on an empty log (popping `undefined`) and on a pass entry (the write
to `board[-1][-1]`). -/
def removeLastMove (gs : GameState) : Except JsErr GameState :=
  match gs.moves.getLast? with
  | none => .error .typeError
  | some lastMove =>
    match writeCell gs.board lastMove.row lastMove.column Cell.empty with
    | .error e => .error e
    | .ok b => .ok ⟨b, gs.moves.dropLast⟩

/-- The string the colour contributes to `"No winning moves for <colour>."`
(JavaScript string concatenation renders `null` and `undefined` as text). -/
def colourName : Cell → String
  | Cell.black => "black"
  | Cell.white => "white"
  | Cell.removed => "removed"
  | Cell.empty => "null"
  | Cell.zero => "0"
  | Cell.undef => "undefined"

/-- The tail of the White branch of `checkWin`: the double-three test and the
shared invalid result. -/
def whiteDoubleThreeCheck (gs : GameState) (board : Board) :
    Except JsErr CheckResult :=
  if blackMakesDoubleThree board then
    match removeLastMove gs with
    | .error e => .error e
    | .ok g2 =>
      if ¬ blackMakesDoubleThree g2.board then
        .ok ⟨true, "Black makes double three."⟩
      else .ok ⟨false, "No winning moves for white."⟩
  else .ok ⟨false, "No winning moves for white."⟩

/-- `Renju.checkWin`: Black wins by an exact five; White wins by five or
more, a Black overline, or a Black double four / double three present now but
absent after retracting the last logged move. -/
def checkWin (playerColour : Cell) (gs : GameState) : Except JsErr CheckResult :=
  let board := gs.board
  if playerColour = Cell.black ∧ checkIfFiveInARow Cell.black board then
    .ok ⟨true, "5 in a row for black."⟩
  else if playerColour = Cell.white then
    if checkIfFiveInARow Cell.white board ∨ checkOverline Cell.white board then
      .ok ⟨true, "5 or more in a row for white."⟩
    else if checkOverline Cell.black board then
      .ok ⟨true, "Black makes overline."⟩
    else if blackMakesDoubleFour board then
      match removeLastMove gs with
      | .error e => .error e
      | .ok g2 =>
        if ¬ blackMakesDoubleFour g2.board then
          .ok ⟨true, "Black makes double four."⟩
        else whiteDoubleThreeCheck gs board
    else whiteDoubleThreeCheck gs board
  else .ok ⟨false, "No winning moves for " ++ colourName playerColour ++ "."⟩

/-- `Renju.checkDraw`: needs 3 moves made; a full board or two trailing
passes end the game. (Reading `moves[length - 2].row` with fewer than 2 moves
would throw, but the leading guard makes that unreachable.) -/
def checkDraw (gs : GameState) : CheckResult :=
  if movesMade gs < 3 then
    ⟨false, "The game has not progressed far enough."⟩
  else if isBoardFull gs.board then
    ⟨true, "The board is full."⟩
  else if ((gs.moves[gs.moves.length - 1]?).map Move.row = some (-1)) ∧
      ((gs.moves[gs.moves.length - 2]?).map Move.row = some (-1)) then
    ⟨true, "The last two moves were passes."⟩
  else ⟨false, ""⟩

instance {ε α : Type} [DecidableEq ε] [DecidableEq α] : DecidableEq (Except ε α) :=
  fun x y =>
    match x, y with
    | .ok a, .ok b =>
      if h : a = b then isTrue (by rw [h]) else isFalse (fun hc => by cases hc; exact h rfl)
    | .error a, .error b =>
      if h : a = b then isTrue (by rw [h]) else isFalse (fun hc => by cases hc; exact h rfl)
    | .ok _, .error _ => isFalse (fun hc => by cases hc)
    | .error _, .ok _ => isFalse (fun hc => by cases hc)

/-! ## Specification-side definitions

The definitions below state properties in the spec's own vocabulary (runs of
consecutive stones in a scanned line); the bridging lemmas later prove them
equivalent to the scanner above. -/

/-- Spec-side: the length of the run of `c`-cells at the head of a line. -/
def headRun (c : Cell) : List Cell → Nat
  | [] => 0
  | v :: rest => if v = c then headRun c rest + 1 else 0

/-- Spec-side: the length of the longest run of `c`-cells in the line, with
`cur` cells of `c` immediately preceding the line already counted. -/
def maxCont (c : Cell) (cur : Nat) : List Cell → Nat
  | [] => cur
  | v :: rest => if v = c then maxCont c (cur + 1) rest
                 else max cur (maxCont c 0 rest)

/-- Spec-side: the line contains `k` consecutive cells equal to `c`. -/
def hasRun (c : Cell) (k : Nat) : List Cell → Bool
  | [] => decide (k = 0)
  | v :: rest => decide ((v :: rest).take k = List.replicate k c) || hasRun c k rest

/-- Spec-side: positions `i, …, i + k - 1` of the line hold `c` and the two
flanking positions (when they exist) do not — an unbroken run of exactly `k`. -/
def exactRunAt (c : Cell) (l : List Cell) (i k : Nat) : Bool :=
  decide ((l.drop i).take k = List.replicate k c) &&
    (decide (i = 0) || decide (¬ l[i - 1]? = some c)) &&
      decide (¬ l[i + k]? = some c)

/-- The 1-dimensional lines the scanner examines: the rotated board's rows
(the columns), the rows, and the two diagonal shears, in source order. -/
def allLines (board : Board) : List (List Cell) :=
  rotateBoard board ++ board ++ changeDiagonalToHorizontal board

/-- Spec-side: some scanned line contains five or more consecutive `c`-cells. -/
def lineFiveOrMore (c : Cell) (board : Board) : Bool :=
  (allLines board).any (fun l => hasRun c 5 l)

/-- Spec-side: some scanned line contains six or more consecutive `c`-cells
(an overline). -/
def lineOverline (c : Cell) (board : Board) : Bool :=
  (allLines board).any (fun l => hasRun c 6 l)

/-- Spec-side: some scanned line's longest run of `c`-cells has length
exactly five. -/
def lineExactFive (c : Cell) (board : Board) : Bool :=
  (allLines board).any (fun l => hasRun c 5 l && ! hasRun c 6 l)

/-- Claim-side reading of "exactly five same-colour stones in an unbroken
line along some axis": some scanned line has an unbroken run of exactly five
`c`-cells somewhere (other, longer runs may exist elsewhere in the line). -/
def hasExactFiveRun (c : Cell) (board : Board) : Bool :=
  (allLines board).any (fun l =>
    (List.range (l.length + 1)).any (fun i => exactRunAt c l i 5))

/-- The claim's description of the White result of `checkWin`, with the first
satisfied condition supplying the reason: five or more in a row for White;
a Black overline; a Black double four present now but not after retracting
the last logged move; likewise a Black double three; otherwise no win. -/
def whiteWinSpec (gs : GameState) : CheckResult :=
  if lineFiveOrMore Cell.white gs.board then
    ⟨true, "5 or more in a row for white."⟩
  else if lineOverline Cell.black gs.board then
    ⟨true, "Black makes overline."⟩
  else if blackMakesDoubleFour gs.board &&
      (match removeLastMove gs with
       | .ok g2 => ! blackMakesDoubleFour g2.board
       | .error _ => false) then
    ⟨true, "Black makes double four."⟩
  else if blackMakesDoubleThree gs.board &&
      (match removeLastMove gs with
       | .ok g2 => ! blackMakesDoubleThree g2.board
       | .error _ => false) then
    ⟨true, "Black makes double three."⟩
  else ⟨false, "No winning moves for white."⟩

/-- The amended description of the Black result of `checkWin`: valid exactly
when some scanned line's longest Black run has length exactly five. -/
def blackWinSpec (gs : GameState) : CheckResult :=
  if lineExactFive Cell.black gs.board then ⟨true, "5 in a row for black."⟩
  else ⟨false, "No winning moves for black."⟩

/-- The target of `attemptRemove` matches the cell of the 5th or 6th logged
move (the claim's success condition, stated for a log of length 6). -/
def matchFiveSix (row column : Int) (gs : GameState) : Bool :=
  match gs.moves[5]?, gs.moves[4]? with
  | some pm, some spm =>
    (decide (pm.row = row) && decide (pm.column = column)) ||
      (decide (spm.row = row) && decide (spm.column = column))
  | _, _ => false

/-- The effect of one logged move on a board: removals mark the cell
`removed`, passes change nothing, placements write the colour. -/
def applyMove (b : Board) (m : Move) : Board :=
  if m.removed then jsUpdate b m.row m.column Cell.removed
  else if m.row = -1 then b
  else jsUpdate b m.row m.column m.playerColour

/-- Game states reachable from `initiateGame` by accepted operations, indexed
by the board dimensions, the number of accepted non-pass actions (`np`:
placements and removals) and the number of all accepted actions (`t`). -/
inductive ReachableCounts (width height : Nat) : GameState → Nat → Nat → Prop
  | init (b : Board) :
      createBoard width height Cell.empty = some b →
      ReachableCounts width height ⟨b, []⟩ 0 0
  | ply (gs gs2 : GameState) (np t : Nat) (pc : Cell) (r c : Int) :
      ReachableCounts width height gs np t →
      attemptPly pc r c gs = .ok ⟨some gs2, true⟩ →
      ReachableCounts width height gs2 (np + 1) (t + 1)
  | remove (gs gs2 : GameState) (np t : Nat) (r c : Int) :
      ReachableCounts width height gs np t →
      attemptRemove r c gs = .ok ⟨some gs2, true⟩ →
      ReachableCounts width height gs2 (np + 1) (t + 1)
  | pass (gs gs2 : GameState) (np t : Nat) (pc : Cell) :
      ReachableCounts width height gs np t →
      attemptPass pc gs = ⟨some gs2, true⟩ →
      ReachableCounts width height gs2 np (t + 1)

/-- The legal third-move cells after `(7,7)`/`(6,7)` as enumerated by the
claim: rows 5–8 at columns 8 and 9, rows 5, 8, 9 at column 7. -/
def claimedMoveThreeCells (r c : Int) : Bool :=
  (decide (5 ≤ r) && decide (r ≤ 8) && (decide (c = 9) || decide (c = 8))) ||
    ((decide (r = 5) || decide (r = 8) || decide (r = 9)) && decide (c = 7))

/-- The legal third-move cells after `(7,7)`/`(6,7)` that the code accepts:
every empty cell of the 5×3 neighbourhood rows 5–9, columns 7–9. -/
def legalMoveThreeCells (r c : Int) : Bool :=
  decide (5 ≤ r) && decide (r ≤ 9) && decide (7 ≤ c) && decide (c ≤ 9) &&
    ! (decide (r = 7) && decide (c = 7)) && ! (decide (r = 6) && decide (c = 7))

/-- `true` when the computation returned normally with value `b`. -/
def okEq (x : Except JsErr Bool) (b : Bool) : Bool :=
  match x with
  | .ok v => v == b
  | .error _ => false

/-- The empty 15×15 board. -/
def emptyBoard15 : Board :=
  List.replicate 15 (List.replicate 15 Cell.empty)

/-- The fresh default game state (`Renju.initiateGame()`). -/
def gameStart : GameState :=
  ⟨emptyBoard15, []⟩

/-- The position after Black's move 1 at `(7,7)` and White's move 2 at
`(6,7)` — the claim's vertical opening pattern. -/
def gsVert : GameState :=
  ⟨jsUpdate (jsUpdate emptyBoard15 7 7 Cell.black) 6 7 Cell.white,
   [⟨Cell.black, 7, 7, false⟩, ⟨Cell.white, 6, 7, false⟩]⟩

/-- A one-row board holding a Black run of six, a gap, a Black run of exactly
five, and a trailing empty cell. -/
def sixAndFiveRow : List Cell :=
  [Cell.black, Cell.black, Cell.black, Cell.black, Cell.black, Cell.black,
   Cell.empty, Cell.black, Cell.black, Cell.black, Cell.black, Cell.black,
   Cell.empty]

/-- A position whose single scan row holds both a six-run and a separate
exact five-run for Black. -/
def gsSixAndFive : GameState :=
  ⟨[sixAndFiveRow], [⟨Cell.black, 0, 0, false⟩]⟩

/-- A 5×5 board with two Black runs of exactly four crossing at `(2,2)` —
a Black double four, with no five and no overline. -/
def crossBoard : Board :=
  [[Cell.empty, Cell.empty, Cell.black, Cell.empty, Cell.empty],
   [Cell.empty, Cell.empty, Cell.black, Cell.empty, Cell.empty],
   [Cell.black, Cell.black, Cell.black, Cell.black, Cell.empty],
   [Cell.empty, Cell.empty, Cell.black, Cell.empty, Cell.empty],
   [Cell.empty, Cell.empty, Cell.empty, Cell.empty, Cell.empty]]

/-- The double-four cross with a White five in the bottom row. -/
def crossAndWhiteFiveBoard : Board :=
  [[Cell.empty, Cell.empty, Cell.black, Cell.empty, Cell.empty],
   [Cell.empty, Cell.empty, Cell.black, Cell.empty, Cell.empty],
   [Cell.black, Cell.black, Cell.black, Cell.black, Cell.empty],
   [Cell.empty, Cell.empty, Cell.black, Cell.empty, Cell.empty],
   [Cell.white, Cell.white, Cell.white, Cell.white, Cell.white]]

/-- A logged pass by White. -/
def whitePass : Move :=
  ⟨Cell.white, -1, -1, false⟩

/-- A position with a Black double four, a White five, and a pass as the last
logged move. -/
def gsCrossWhiteFivePass : GameState :=
  ⟨crossAndWhiteFiveBoard, [whitePass]⟩

/-- A position with a Black double four (and no earlier win condition) whose
last logged move is a pass. -/
def gsCrossPass : GameState :=
  ⟨crossBoard, [whitePass]⟩

/-- A placement move. -/
def mkMove (pc : Cell) (r c : Int) : Move :=
  ⟨pc, r, c, false⟩

/-- A six-move log whose 5th and 6th entries are passes, over a 3×3 board. -/
def gsPassTail : GameState :=
  ⟨List.replicate 3 (List.replicate 3 Cell.empty),
   [mkMove Cell.black 0 0, mkMove Cell.white 0 1, mkMove Cell.black 0 2,
    mkMove Cell.white 1 0, mkMove Cell.black (-1) (-1),
    mkMove Cell.black (-1) (-1)]⟩

/-- A six-move log of ordinary placements over a 3×3 board. -/
def gsSixMoves : GameState :=
  ⟨List.replicate 3 (List.replicate 3 Cell.empty),
   [mkMove Cell.black 0 0, mkMove Cell.white 0 1, mkMove Cell.black 0 2,
    mkMove Cell.white 1 0, mkMove Cell.black 1 1, mkMove Cell.black 1 2]⟩

/-- The state an accepted ply produces (helper for exhibiting reachable
states). -/
def stepPly (pc : Cell) (r c : Int) (gs : GameState) : GameState :=
  match attemptPly pc r c gs with
  | .ok ⟨some g, _⟩ => g
  | _ => gs

/-- The state an accepted pass produces. -/
def stepPass (pc : Cell) (gs : GameState) : GameState :=
  match attemptPass pc gs with
  | ⟨some g, _⟩ => g
  | _ => gs

/-- The position after Black's accepted move 1 at `(7,7)`. -/
def gsOpen1 : GameState := stepPly Cell.black 7 7 gameStart

/-- The position after White's accepted move 2 at `(6,7)`. -/
def gsOpen2 : GameState := stepPly Cell.white 6 7 gsOpen1

/-- The position after Black's accepted move 3 at `(8,7)`. -/
def gsOpen3 : GameState := stepPly Cell.black 8 7 gsOpen2

/-- Moves 1–3 of an opening followed by an accepted pass by White. -/
def gsOpenPass : GameState := stepPass Cell.white gsOpen3

/-- A 1×1 position (odd dimensions, no moves). -/
def gsTiny : GameState :=
  ⟨[[Cell.empty]], []⟩

theorem maxCont_le (c : Cell) : ∀ (l : List Cell) (cur : Nat), cur ≤ maxCont c cur l
  | [], _ => Nat.le_refl _
  | v :: rest, cur => by
    unfold maxCont
    by_cases hv : v = c
    · simp only [if_pos hv]
      exact Nat.le_trans (Nat.le_succ cur) (maxCont_le c rest (cur + 1))
    · simp only [if_neg hv]
      exact Nat.le_max_left _ _

theorem runStep_miss (c : Cell) (s : RunScan) (v : Cell)
    (h : ¬ (v = c ∧ v = s.previousValue)) (h1 : 1 ≤ s.largestCounter) :
    runStep c s v = ⟨1, s.startingIndex, s.largestCounter, v, s.index + 1⟩ := by
  unfold runStep
  simp only [if_neg h]
  rw [if_neg (by omega)]

theorem runStep_hit_new (c : Cell) (s : RunScan) (v : Cell)
    (h : v = c ∧ v = s.previousValue) (hlt : s.largestCounter < s.counter + 1) :
    runStep c s v = ⟨s.counter + 1, s.index + 1 - (s.counter + 1), s.counter + 1,
      v, s.index + 1⟩ := by
  unfold runStep
  simp only [if_pos h]
  rw [if_pos hlt]

theorem runStep_hit_old (c : Cell) (s : RunScan) (v : Cell)
    (h : v = c ∧ v = s.previousValue) (hlt : ¬ s.largestCounter < s.counter + 1) :
    runStep c s v = ⟨s.counter + 1, s.startingIndex, s.largestCounter, v,
      s.index + 1⟩ := by
  unfold runStep
  simp only [if_pos h]
  rw [if_neg hlt]

theorem runLoop_largest (c : Cell) :
    ∀ (l : List Cell) (s : RunScan) (cur best : Nat),
      s.counter = max 1 cur →
      s.largestCounter = max 1 best →
      (cur = 0 → ¬ s.previousValue = c) →
      (0 < cur → s.previousValue = c) →
      cur ≤ max 1 best →
      (l.foldl (runStep c) s).largestCounter = max 1 (max best (maxCont c cur l)) := by
  intro l
  induction l with
  | nil =>
    intro s cur best h1 h2 h3 h4 h5
    simp only [List.foldl_nil, maxCont]
    omega
  | cons v rest ih =>
    intro s cur best h1 h2 h3 h4 h5
    simp only [List.foldl_cons]
    by_cases hv : v = c
    · by_cases hcur : cur = 0
      · have hprev : ¬ v = s.previousValue := fun hp => (h3 hcur) (hp ▸ hv ▸ rfl)
        rw [runStep_miss c s v (fun h => hprev h.2) (by omega)]
        have hrec := ih ⟨1, s.startingIndex, s.largestCounter, v, s.index + 1⟩ 1 best
          rfl h2 (fun h => absurd h (by omega)) (fun _ => hv) (by omega)
        subst hcur
        simp only [maxCont, if_pos hv]
        exact hrec
      · have hprev : s.previousValue = c := h4 (by omega)
        have hcond : v = c ∧ v = s.previousValue := ⟨hv, hv.trans hprev.symm⟩
        have hmc := maxCont_le c rest (cur + 1)
        by_cases hlt : s.largestCounter < s.counter + 1
        · rw [runStep_hit_new c s v hcond hlt]
          have hrec := ih
            ⟨s.counter + 1, s.index + 1 - (s.counter + 1), s.counter + 1, v, s.index + 1⟩
            (cur + 1) (max best (cur + 1))
            (show s.counter + 1 = max 1 (cur + 1) by omega)
            (show s.counter + 1 = max 1 (max best (cur + 1)) by omega)
            (fun h => absurd h (by omega)) (fun _ => hv)
            (show cur + 1 ≤ max 1 (max best (cur + 1)) by omega)
          rw [hrec]
          simp only [maxCont, if_pos hv]
          omega
        · rw [runStep_hit_old c s v hcond hlt]
          have hrec := ih
            ⟨s.counter + 1, s.startingIndex, s.largestCounter, v, s.index + 1⟩
            (cur + 1) (max best (cur + 1))
            (show s.counter + 1 = max 1 (cur + 1) by omega)
            (show s.largestCounter = max 1 (max best (cur + 1)) by omega)
            (fun h => absurd h (by omega)) (fun _ => hv)
            (show cur + 1 ≤ max 1 (max best (cur + 1)) by omega)
          rw [hrec]
          simp only [maxCont, if_pos hv]
          omega
    · rw [runStep_miss c s v (fun h => hv h.1) (by omega)]
      have hrec := ih ⟨1, s.startingIndex, s.largestCounter, v, s.index + 1⟩ 0 (max best cur)
        rfl (show s.largestCounter = max 1 (max best cur) by omega)
        (fun _ => hv) (fun h => absurd h (by omega)) (by omega)
      rw [hrec]
      simp only [maxCont, if_neg hv]
      omega

theorem countTouchingInARow_length (c : Cell) (hc : ¬ c = Cell.zero) (row : List Cell) :
    (countTouchingInARow c row).length = max 1 (maxCont c 0 row) := by
  unfold countTouchingInARow
  rw [List.length_range']
  rw [runLoop_largest c row ⟨1, 0, 1, Cell.zero, 0⟩ 0 0 rfl rfl
    (fun _ h => hc h.symm) (fun h => absurd h (by omega)) (by omega)]
  omega

theorem headRun_cons (c v : Cell) (rest : List Cell) :
    headRun c (v :: rest) = if v = c then headRun c rest + 1 else 0 := rfl

theorem maxCont_cons (c v : Cell) (cur : Nat) (rest : List Cell) :
    maxCont c cur (v :: rest) =
      if v = c then maxCont c (cur + 1) rest else max cur (maxCont c 0 rest) := rfl

theorem hasRun_cons (c v : Cell) (k : Nat) (rest : List Cell) :
    hasRun c k (v :: rest) =
      (decide ((v :: rest).take k = List.replicate k c) || hasRun c k rest) := rfl

theorem headRun_take (c : Cell) :
    ∀ (l : List Cell) (k : Nat), k ≤ headRun c l ↔ l.take k = List.replicate k c := by
  intro l
  induction l with
  | nil =>
    intro k
    cases k with
    | zero => simp [headRun]
    | succ k => simp [headRun]
  | cons v rest ih =>
    intro k
    cases k with
    | zero => simp
    | succ k =>
      rw [List.take_succ_cons, List.replicate_succ, headRun_cons]
      by_cases hv : v = c
      · rw [if_pos hv, Nat.succ_le_succ_iff, ih k]
        simp [hv]
      · rw [if_neg hv]
        simp only [List.cons.injEq]
        constructor
        · omega
        · rintro ⟨h, _⟩
          exact absurd h hv

theorem hasRun_of_headRun (c : Cell) (k : Nat) (hk : 1 ≤ k) :
    ∀ (l : List Cell), k ≤ headRun c l → hasRun c k l = true := by
  intro l
  cases l with
  | nil =>
    intro h
    unfold headRun at h
    omega
  | cons v rest =>
    intro h
    rw [hasRun_cons, Bool.or_eq_true, decide_eq_true_iff]
    exact Or.inl ((headRun_take c (v :: rest) k).mp h)

theorem maxCont_ge_iff (c : Cell) (k : Nat) (hk : 1 ≤ k) :
    ∀ (l : List Cell) (cur : Nat),
      k ≤ maxCont c cur l ↔ k ≤ cur + headRun c l ∨ hasRun c k l = true := by
  intro l
  induction l with
  | nil =>
    intro cur
    unfold maxCont headRun hasRun
    simp
    omega
  | cons v rest ih =>
    intro cur
    rw [maxCont_cons, headRun_cons, hasRun_cons, Bool.or_eq_true, decide_eq_true_iff]
    rw [show ((v :: rest).take k = List.replicate k c) ↔ k ≤ headRun c (v :: rest) from
      (headRun_take c (v :: rest) k).symm]
    rw [headRun_cons]
    by_cases hv : v = c
    · rw [if_pos hv, if_pos hv, ih (cur + 1)]
      constructor
      · rintro (h | h)
        · exact Or.inl (by omega)
        · exact Or.inr (Or.inr h)
      · rintro (h | h | h)
        · exact Or.inl (by omega)
        · exact Or.inl (by omega)
        · exact Or.inr h
    · rw [if_neg hv, if_neg hv, le_max_iff, ih 0]
      constructor
      · rintro (h | h | h)
        · exact Or.inl (by omega)
        · exact Or.inr (Or.inr (hasRun_of_headRun c k hk rest (by omega)))
        · exact Or.inr (Or.inr h)
      · rintro (h | h | h)
        · exact Or.inl (by omega)
        · omega
        · exact Or.inr (Or.inr h)

theorem hasRun_iff_maxCont (c : Cell) (k : Nat) (hk : 1 ≤ k) (l : List Cell) :
    hasRun c k l = true ↔ k ≤ maxCont c 0 l := by
  rw [maxCont_ge_iff c k hk l 0]
  constructor
  · exact fun h => Or.inr h
  · rintro (h | h)
    · exact hasRun_of_headRun c k hk l (by omega)
    · exact h

theorem totalNumberOfTouchingPieces_eq (c : Cell) (b : Board) :
    totalNumberOfTouchingPieces c b =
      ((allLines b).map (fun l => (countTouchingInARow c l).length)).filter
        (fun x => decide (2 ≤ x)) := by
  unfold totalNumberOfTouchingPieces countVerticalTouching countDiagonalTouching
    countHorizontalTouching allLines
  simp only [List.map_map, List.map_append, List.filter_append]
  rfl

theorem mem_total_iff (c : Cell) (b : Board) (k : Nat) :
    k ∈ totalNumberOfTouchingPieces c b ↔
      2 ≤ k ∧ ∃ l ∈ allLines b, (countTouchingInARow c l).length = k := by
  rw [totalNumberOfTouchingPieces_eq, List.mem_filter]
  simp only [List.mem_map, decide_eq_true_iff]
  constructor
  · rintro ⟨⟨l, hl, hlen⟩, hk⟩
    exact ⟨hk, l, hl, hlen⟩
  · rintro ⟨hk, l, hl, hlen⟩
    exact ⟨⟨l, hl, hlen⟩, hk⟩

theorem checkIfFiveInARow_iff (c : Cell) (hc : ¬ c = Cell.zero) (b : Board) :
    checkIfFiveInARow c b = true ↔ lineExactFive c b = true := by
  unfold checkIfFiveInARow lineExactFive
  rw [decide_eq_true_iff, mem_total_iff, List.any_eq_true]
  constructor
  · rintro ⟨-, l, hl, hlen⟩
    rw [countTouchingInARow_length c hc] at hlen
    refine ⟨l, hl, ?_⟩
    rw [Bool.and_eq_true, Bool.not_eq_true']
    constructor
    · rw [hasRun_iff_maxCont c 5 (by omega)]
      omega
    · rw [← Bool.not_eq_true, hasRun_iff_maxCont c 6 (by omega)]
      omega
  · rintro ⟨l, hl, hrun⟩
    rw [Bool.and_eq_true, Bool.not_eq_true'] at hrun
    obtain ⟨h5, h6⟩ := hrun
    rw [hasRun_iff_maxCont c 5 (by omega)] at h5
    rw [← Bool.not_eq_true, hasRun_iff_maxCont c 6 (by omega)] at h6
    refine ⟨by omega, l, hl, ?_⟩
    rw [countTouchingInARow_length c hc]
    omega

theorem checkOverline_iff (c : Cell) (hc : ¬ c = Cell.zero) (b : Board) :
    checkOverline c b = true ↔ lineOverline c b = true := by
  unfold checkOverline lineOverline
  rw [List.any_eq_true, List.any_eq_true]
  constructor
  · rintro ⟨k, hk, h5⟩
    rw [decide_eq_true_iff] at h5
    rw [mem_total_iff] at hk
    obtain ⟨-, l, hl, hlen⟩ := hk
    rw [countTouchingInARow_length c hc] at hlen
    refine ⟨l, hl, ?_⟩
    rw [hasRun_iff_maxCont c 6 (by omega)]
    omega
  · rintro ⟨l, hl, hrun⟩
    rw [hasRun_iff_maxCont c 6 (by omega)] at hrun
    refine ⟨(countTouchingInARow c l).length, ?_, ?_⟩
    · rw [mem_total_iff]
      rw [countTouchingInARow_length c hc]
      exact ⟨by omega, l, hl, countTouchingInARow_length c hc l⟩
    · rw [decide_eq_true_iff, countTouchingInARow_length c hc]
      omega

theorem fiveOrOverline_iff (c : Cell) (hc : ¬ c = Cell.zero) (b : Board) :
    (checkIfFiveInARow c b = true ∨ checkOverline c b = true) ↔
      lineFiveOrMore c b = true := by
  rw [checkIfFiveInARow_iff c hc, checkOverline_iff c hc]
  unfold lineExactFive lineOverline lineFiveOrMore
  rw [List.any_eq_true, List.any_eq_true, List.any_eq_true]
  constructor
  · rintro (⟨l, hl, hrun⟩ | ⟨l, hl, hrun⟩)
    · rw [Bool.and_eq_true] at hrun
      exact ⟨l, hl, hrun.1⟩
    · refine ⟨l, hl, ?_⟩
      rw [hasRun_iff_maxCont c 6 (by omega)] at hrun
      rw [hasRun_iff_maxCont c 5 (by omega)]
      omega
  · rintro ⟨l, hl, hrun⟩
    by_cases h6 : hasRun c 6 l = true
    · exact Or.inr ⟨l, hl, h6⟩
    · refine Or.inl ⟨l, hl, ?_⟩
      rw [Bool.and_eq_true, Bool.not_eq_true']
      exact ⟨hrun, Bool.eq_false_iff.mpr h6⟩

theorem whiteDoubleThreeCheck_spec (gs : GameState) (r : CheckResult)
    (h : whiteDoubleThreeCheck gs gs.board = .ok r) :
    r = (if (blackMakesDoubleThree gs.board &&
          (match removeLastMove gs with
           | .ok g2 => ! blackMakesDoubleThree g2.board
           | .error _ => false)) = true then
        (⟨true, "Black makes double three."⟩ : CheckResult)
      else ⟨false, "No winning moves for white."⟩) := by
  unfold whiteDoubleThreeCheck at h
  by_cases h3 : blackMakesDoubleThree gs.board = true
  · rw [if_pos h3] at h
    cases hrm : removeLastMove gs with
    | error e =>
      rw [hrm] at h
      cases h
    | ok g2 =>
      rw [hrm] at h
      dsimp only at h
      by_cases h3b : blackMakesDoubleThree g2.board = true
      · rw [if_neg (not_not_intro h3b)] at h
        rw [if_neg (by simp [h3b])]
        injection h with h2
        exact h2.symm
      · rw [if_pos h3b] at h
        rw [if_pos (by simp [h3, Bool.eq_false_iff.mpr h3b])]
        injection h with h2
        exact h2.symm
  · rw [if_neg h3] at h
    rw [if_neg (by simp [Bool.eq_false_iff.mpr h3])]
    injection h with h2
    exact h2.symm

/-- C1: for every position on which `checkWin` for White returns a result,
that result is exactly the claim's ordered case split: five or more in a row
for White; else a Black overline; else a Black double four present now but
not after retracting the last logged move; else likewise a Black double
three; else no win, with the corresponding reason strings. -/
theorem checkWin_white_iff (gs : GameState) (r : CheckResult)
    (h : checkWin Cell.white gs = .ok r) : r = whiteWinSpec gs := by
  unfold checkWin at h
  rw [if_neg (fun hcond => Cell.noConfusion hcond.1)] at h
  rw [if_pos rfl] at h
  unfold whiteWinSpec
  by_cases hw5 : lineFiveOrMore Cell.white gs.board = true
  · rw [if_pos ((fiveOrOverline_iff Cell.white (by decide) gs.board).mpr hw5)] at h
    rw [if_pos hw5]
    injection h with h2
    exact h2.symm
  · rw [if_neg (fun hc =>
      hw5 ((fiveOrOverline_iff Cell.white (by decide) gs.board).mp hc))] at h
    rw [if_neg hw5]
    by_cases hbo : checkOverline Cell.black gs.board = true
    · rw [if_pos hbo] at h
      rw [if_pos ((checkOverline_iff Cell.black (by decide) gs.board).mp hbo)]
      injection h with h2
      exact h2.symm
    · rw [if_neg hbo] at h
      rw [if_neg (fun hc =>
        hbo ((checkOverline_iff Cell.black (by decide) gs.board).mpr hc))]
      by_cases hf4 : blackMakesDoubleFour gs.board = true
      · rw [if_pos hf4] at h
        cases hrm : removeLastMove gs with
        | error e =>
          rw [hrm] at h
          cases h
        | ok g2 =>
          rw [hrm] at h
          dsimp only at h
          by_cases hf4b : blackMakesDoubleFour g2.board = true
          · rw [if_neg (not_not_intro hf4b)] at h
            rw [if_neg (by simp [hf4b])]
            have h3s := whiteDoubleThreeCheck_spec gs r h
            rw [hrm] at h3s
            exact h3s
          · rw [if_pos hf4b] at h
            rw [if_pos (by simp [hf4, Bool.eq_false_iff.mpr hf4b])]
            injection h with h2
            exact h2.symm
      · rw [if_neg hf4] at h
        rw [if_neg (by simp [Bool.eq_false_iff.mpr hf4])]
        exact whiteDoubleThreeCheck_spec gs r h

set_option maxRecDepth 4000 in
/-- C1 witness: on the fresh 1×1 position `checkWin` for White returns, and
the claim's case split yields the no-win result. -/
theorem checkWin_white_iff_witness :
    (⟨false, "No winning moves for white."⟩ : CheckResult) = whiteWinSpec gsTiny :=
  checkWin_white_iff gsTiny ⟨false, "No winning moves for white."⟩ (by decide)

/-- C2 (amended): for every position, `checkWin` for Black returns normally,
and is valid (with the five-in-a-row reason) exactly when some scanned line's
longest run of Black stones has length exactly five. -/
theorem checkWin_black_five_line (gs : GameState) :
    checkWin Cell.black gs = .ok (blackWinSpec gs) := by
  unfold checkWin blackWinSpec
  by_cases h5 : checkIfFiveInARow Cell.black gs.board = true
  · rw [if_pos ⟨rfl, h5⟩,
      if_pos ((checkIfFiveInARow_iff Cell.black (by decide) gs.board).mp h5)]
  · rw [if_neg (fun hc => h5 hc.2)]
    rw [if_neg (fun hc : Cell.black = Cell.white => Cell.noConfusion hc)]
    rw [if_neg (fun hc =>
      h5 ((checkIfFiveInARow_iff Cell.black (by decide) gs.board).mpr hc))]
    rfl

set_option maxRecDepth 8000 in
/-- C2 counterexample: on a one-row board holding a Black six-run and a
separate unbroken Black run of exactly five, Black does have exactly five in
an unbroken line along an axis, yet `checkWin` for Black is invalid — the
scanner keeps only the longest run of each line. -/
theorem checkWin_black_exact_five_counterexample :
    hasExactFiveRun Cell.black gsSixAndFive.board = true ∧
      checkWin Cell.black gsSixAndFive =
        .ok ⟨false, "No winning moves for black."⟩ :=
  ⟨by decide, by decide⟩

set_option maxRecDepth 16000 in
/-- C3 counterexample: at move 3 of the vertical opening the code accepts
Black's move at `(9, 8)`, a cell the claim's enumeration excludes. -/
theorem moveThree_vertical_set_counterexample :
    isMoveValid Cell.black 9 8 gsVert = .ok true ∧
      claimedMoveThreeCells 9 8 = false :=
  ⟨by decide, by decide⟩

set_option maxRecDepth 100000 in
/-- C3 (amended): at move 3 of the vertical opening `(7,7)`/`(6,7)`, the code
accepts Black exactly at the empty cells of rows 5–9, columns 7–9 (the
claim's set plus `(9,8)` and `(9,9)`), and accepts White nowhere. -/
theorem moveThree_vertical_legal_set :
    ((List.range 15).all fun r => (List.range 15).all fun c =>
      okEq (isMoveValid Cell.black r c gsVert) (legalMoveThreeCells r c) &&
        okEq (isMoveValid Cell.white r c gsVert) false) = true := by decide

/-- C4: the colour-to-move schedule — Black after 5 moves, White after 6,
otherwise Black exactly after an even number of moves. -/
theorem colourToMove_schedule (gs : GameState) :
    colourToMove gs =
      (if movesMade gs = 5 then Cell.black
       else if movesMade gs = 6 then Cell.white
       else if movesMade gs % 2 = 0 then Cell.black
       else Cell.white) := by
  by_cases h5 : movesMade gs = 5
  · simp only [colourToMove]
    rw [h5]
    decide
  · by_cases h6 : movesMade gs = 6
    · simp only [colourToMove]
      rw [h6]
      decide
    · simp only [colourToMove]
      rw [if_neg h5, if_neg h6]
      by_cases hp : movesMade gs % 2 = 0
      · rw [if_pos hp]
        by_cases hr : movesMade gs ≤ 4 ∨ 7 ≤ movesMade gs
        · rw [if_pos hr]
        · exfalso
          omega
      · rw [if_neg hp]
        by_cases hr : movesMade gs ≤ 4 ∨ 7 ≤ movesMade gs
        · rw [if_pos hr]
        · exfalso
          omega

/-- C5 (amended): `attemptRemove` is invalid (exposing no position) unless
exactly 6 moves were made and the target equals the 5th or 6th logged move's
cell; in that case, when the matched location is a real row of the board the
cell is marked `removed` and a Black removal move is appended, and when it is
not (a pass entry, row `-1`) the write throws a `TypeError` instead of
returning a result. -/
theorem attemptRemove_spec (row column : Int) (gs : GameState) :
    (movesMade gs ≠ 6 ∨ matchFiveSix row column gs = false →
      attemptRemove row column gs = .ok ⟨none, false⟩) ∧
    (movesMade gs = 6 → matchFiveSix row column gs = true →
      0 ≤ row → row.toNat < gs.board.length →
      attemptRemove row column gs =
        .ok ⟨some ⟨jsUpdate gs.board row column Cell.removed,
          gs.moves ++ [⟨Cell.black, row, column, true⟩]⟩, true⟩) ∧
    (movesMade gs = 6 → matchFiveSix row column gs = true →
      (row < 0 ∨ gs.board.length ≤ row.toNat) →
      attemptRemove row column gs = .error .typeError) := by
  refine ⟨?_, ?_, ?_⟩
  · intro h
    unfold attemptRemove
    by_cases h6 : movesMade gs = 6
    · rw [if_neg (not_not_intro h6)]
      have hm : matchFiveSix row column gs = false := by
        rcases h with h | h
        · exact absurd h6 h
        · exact h
      have hlen : gs.moves.length = 6 := h6
      have h5e : gs.moves[gs.moves.length - 1]? = gs.moves[5]? := by rw [hlen]
      have h4e : gs.moves[gs.moves.length - 2]? = gs.moves[4]? := by rw [hlen]
      rw [h5e, h4e]
      unfold matchFiveSix at hm
      cases hp : gs.moves[5]? with
      | none =>
        cases gs.moves[4]? <;> rfl
      | some pm =>
        rw [hp] at hm
        cases hq : gs.moves[4]? with
        | none =>
          rfl
        | some spm =>
          rw [hq] at hm
          dsimp only at hm ⊢
          have hm2 : ¬ ((pm.row = row ∧ pm.column = column) ∨
              (spm.row = row ∧ spm.column = column)) := by
            rintro (⟨a, b⟩ | ⟨a, b⟩) <;> simp [a, b] at hm
          rw [if_pos hm2]
    · rw [if_pos h6]
  · intro h6 hm hr0 hrl
    unfold attemptRemove
    rw [if_neg (not_not_intro h6)]
    have hlen : gs.moves.length = 6 := h6
    have h5e : gs.moves[gs.moves.length - 1]? = gs.moves[5]? := by rw [hlen]
    have h4e : gs.moves[gs.moves.length - 2]? = gs.moves[4]? := by rw [hlen]
    rw [h5e, h4e]
    unfold matchFiveSix at hm
    cases hp : gs.moves[5]? with
    | none =>
      rw [hp] at hm
      cases hm
    | some pm =>
      rw [hp] at hm
      cases hq : gs.moves[4]? with
      | none =>
        rw [hq] at hm
        cases hm
      | some spm =>
        rw [hq] at hm
        dsimp only at hm ⊢
        have hm2 : (pm.row = row ∧ pm.column = column) ∨
            (spm.row = row ∧ spm.column = column) := by
          simp only [Bool.or_eq_true, Bool.and_eq_true, decide_eq_true_eq] at hm
          exact hm
        rw [if_neg (not_not_intro hm2)]
        rw [show writeCell gs.board row column Cell.removed =
          .ok (jsUpdate gs.board row column Cell.removed) from by
            unfold writeCell
            rw [if_pos ⟨hr0, hrl⟩]]
        rfl
  · intro h6 hm hr
    unfold attemptRemove
    rw [if_neg (not_not_intro h6)]
    have hlen : gs.moves.length = 6 := h6
    have h5e : gs.moves[gs.moves.length - 1]? = gs.moves[5]? := by rw [hlen]
    have h4e : gs.moves[gs.moves.length - 2]? = gs.moves[4]? := by rw [hlen]
    rw [h5e, h4e]
    unfold matchFiveSix at hm
    cases hp : gs.moves[5]? with
    | none =>
      rw [hp] at hm
      cases hm
    | some pm =>
      rw [hp] at hm
      cases hq : gs.moves[4]? with
      | none =>
        rw [hq] at hm
        cases hm
      | some spm =>
        rw [hq] at hm
        dsimp only at hm ⊢
        have hm2 : (pm.row = row ∧ pm.column = column) ∨
            (spm.row = row ∧ spm.column = column) := by
          simp only [Bool.or_eq_true, Bool.and_eq_true, decide_eq_true_eq] at hm
          exact hm
        rw [if_neg (not_not_intro hm2)]
        rw [show writeCell gs.board row column Cell.removed = .error .typeError from by
          unfold writeCell
          rw [if_neg (by omega)]]
        rfl

/-- C5 counterexample: with six moves made whose last two entries are passes,
the target `(-1, -1)` equals the 6th logged move's recorded cell, yet
`attemptRemove` throws a `TypeError` instead of returning a valid result
marking a cell removed. -/
theorem attemptRemove_pass_target_counterexample :
    movesMade gsPassTail = 6 ∧ matchFiveSix (-1) (-1) gsPassTail = true ∧
      attemptRemove (-1) (-1) gsPassTail = .error .typeError :=
  ⟨by decide, by decide, by decide⟩

/-- C5 witness: removing the 6th move's stone of a six-move position
succeeds and marks the cell removed. -/
theorem attemptRemove_spec_witness :
    attemptRemove 1 2 gsSixMoves =
      .ok ⟨some ⟨jsUpdate gsSixMoves.board 1 2 Cell.removed,
        gsSixMoves.moves ++ [⟨Cell.black, 1, 2, true⟩]⟩, true⟩ :=
  (attemptRemove_spec 1 2 gsSixMoves).2.1 (by decide) (by decide) (by decide)
    (by decide)

/-- C7: the attempt operations are pure functions of the input position (so
the caller's position is never modified), and a returned result carries a new
position exactly when the attempt was valid — an invalid attempt exposes no
position at all. -/
theorem attempts_expose_no_state_on_failure (pc : Cell) (r c : Int) (gs : GameState) :
    (∀ res, attemptPly pc r c gs = .ok res → res.gameState.isSome = res.valid) ∧
    (∀ res, attemptRemove r c gs = .ok res → res.gameState.isSome = res.valid) ∧
    (attemptPass pc gs).gameState.isSome = (attemptPass pc gs).valid := by
  refine ⟨?_, ?_, ?_⟩
  · intro res h
    unfold attemptPly at h
    cases hmv : isMoveValid pc r c gs with
    | error e =>
      rw [hmv] at h
      cases h
    | ok v =>
      rw [hmv] at h
      cases v with
      | false =>
        injection h with h2
        subst h2
        rfl
      | true =>
        cases hwc : writeCell gs.board r c pc with
        | error e =>
          rw [hwc] at h
          cases h
        | ok b =>
          rw [hwc] at h
          injection h with h2
          subst h2
          rfl
  · intro res h
    unfold attemptRemove at h
    split at h
    · injection h with h2
      subst h2
      rfl
    · split at h
      · split at h
        · injection h with h2
          subst h2
          rfl
        · cases hwc : writeCell gs.board r c Cell.removed with
          | error e =>
            rw [hwc] at h
            cases h
          | ok b =>
            rw [hwc] at h
            injection h with h2
            subst h2
            rfl
      · injection h with h2
        subst h2
        rfl
  · unfold attemptPass
    split_ifs <;> rfl

/-- C7 witness: an invalid ply and an invalid removal expose no game state,
and a pass's result carries a state exactly when valid. -/
theorem attempts_expose_no_state_on_failure_witness :
    (⟨none, false⟩ : AttemptResult).gameState.isSome = false ∧
      (⟨none, false⟩ : AttemptResult).gameState.isSome = false ∧
      (attemptPass Cell.white gsTiny).gameState.isSome =
        (attemptPass Cell.white gsTiny).valid :=
  ⟨(attempts_expose_no_state_on_failure Cell.white 0 0 gsTiny).1 ⟨none, false⟩
      (by decide),
   (attempts_expose_no_state_on_failure Cell.white 0 0 gsTiny).2.1 ⟨none, false⟩
      (by decide),
   (attempts_expose_no_state_on_failure Cell.white 0 0 gsTiny).2.2⟩

/-- C8: game construction fails exactly when a dimension is even; with both
odd it yields a `w`-by-`h` all-empty board and an empty move log. -/
theorem initiateGame_parity (w h : Nat) :
    (w % 2 = 0 ∨ h % 2 = 0 → initiateGame w h Cell.empty = none) ∧
    (w % 2 = 1 → h % 2 = 1 →
      initiateGame w h Cell.empty =
        some ⟨List.replicate w (List.replicate h Cell.empty), []⟩) := by
  constructor
  · intro hev
    unfold initiateGame createBoard
    rw [if_pos hev]
    rfl
  · intro hw hh
    unfold initiateGame createBoard
    rw [if_neg (by omega)]
    rfl

/-- C8 witness: an even width fails, odd dimensions give the empty board. -/
theorem initiateGame_parity_witness :
    initiateGame 2 3 Cell.empty = none ∧
      initiateGame 3 3 Cell.empty =
        some ⟨List.replicate 3 (List.replicate 3 Cell.empty), []⟩ :=
  ⟨(initiateGame_parity 2 3).1 (Or.inl rfl), (initiateGame_parity 3 3).2 rfl rfl⟩

/-- C9: a row index outside the board throws a `TypeError`, whereas an
in-range row with an out-of-range column is rejected as data (`false`). -/
theorem isMoveValid_out_of_range (pc : Cell) (r c : Int) (gs : GameState) :
    (r < 0 ∨ (gs.board.length : Int) ≤ r →
      isMoveValid pc r c gs = .error .typeError) ∧
    (∀ boardRow, jsIndex gs.board r = some boardRow →
      c < 0 ∨ (boardRow.length : Int) ≤ c → isMoveValid pc r c gs = .ok false) := by
  constructor
  · intro hr
    have hnone : jsIndex gs.board r = none := by
      unfold jsIndex
      by_cases h0 : r < 0
      · rw [if_pos h0]
      · rw [if_neg h0]
        exact List.getElem?_eq_none (by omega)
    unfold isMoveValid
    rw [hnone]
  · intro boardRow hb hc
    have hcnone : jsIndex boardRow c = none := by
      unfold jsIndex
      by_cases h0 : c < 0
      · rw [if_pos h0]
      · rw [if_neg h0]
        exact List.getElem?_eq_none (by omega)
    unfold isMoveValid
    rw [hb]
    dsimp only
    rw [hcnone]

/-- C9 witness: on the 1×1 board, row 5 throws and column 7 of row 0 is
rejected with `false`. -/
theorem isMoveValid_out_of_range_witness :
    isMoveValid Cell.black 5 0 gsTiny = .error .typeError ∧
      isMoveValid Cell.black 0 7 gsTiny = .ok false :=
  ⟨(isMoveValid_out_of_range Cell.black 5 0 gsTiny).1 (by decide),
   (isMoveValid_out_of_range Cell.black 0 7 gsTiny).2 [Cell.empty] (by decide)
      (by decide)⟩

theorem attemptPly_ok (pc : Cell) (r c : Int) (gs gs2 : GameState)
    (h : attemptPly pc r c gs = .ok ⟨some gs2, true⟩) :
    gs2.board = jsUpdate gs.board r c pc ∧
      gs2.moves = gs.moves ++ [⟨pc, r, c, false⟩] ∧ 0 ≤ r := by
  unfold attemptPly at h
  cases hmv : isMoveValid pc r c gs with
  | error e =>
    rw [hmv] at h
    cases h
  | ok v =>
    rw [hmv] at h
    cases v with
    | false =>
      injection h with h2
      cases h2
    | true =>
      cases hwc : writeCell gs.board r c pc with
      | error e =>
        rw [hwc] at h
        cases h
      | ok b =>
        have hcond : 0 ≤ r ∧ r.toNat < gs.board.length := by
          by_contra hcnd
          unfold writeCell at hwc
          rw [if_neg hcnd] at hwc
          cases hwc
        have hbv : b = jsUpdate gs.board r c pc := by
          unfold writeCell at hwc
          rw [if_pos hcond] at hwc
          injection hwc with h3
          exact h3.symm
        rw [hwc] at h
        injection h with h2
        injection h2 with hgs hval
        injection hgs with hgs
        rw [← hgs, hbv]
        exact ⟨rfl, rfl, hcond.1⟩

theorem attemptRemove_ok (r c : Int) (gs gs2 : GameState)
    (h : attemptRemove r c gs = .ok ⟨some gs2, true⟩) :
    gs2.board = jsUpdate gs.board r c Cell.removed ∧
      gs2.moves = gs.moves ++ [⟨Cell.black, r, c, true⟩] ∧ 0 ≤ r := by
  unfold attemptRemove at h
  split at h
  · injection h with h2
    cases h2
  · split at h
    · split at h
      · injection h with h2
        cases h2
      · cases hwc : writeCell gs.board r c Cell.removed with
        | error e =>
          rw [hwc] at h
          cases h
        | ok b =>
          have hcond : 0 ≤ r ∧ r.toNat < gs.board.length := by
            by_contra hcnd
            unfold writeCell at hwc
            rw [if_neg hcnd] at hwc
            cases hwc
          have hbv : b = jsUpdate gs.board r c Cell.removed := by
            unfold writeCell at hwc
            rw [if_pos hcond] at hwc
            injection hwc with h3
            exact h3.symm
          rw [hwc] at h
          injection h with h2
          injection h2 with hgs hval
          injection hgs with hgs
          rw [← hgs, hbv]
          exact ⟨rfl, rfl, hcond.1⟩
    · injection h with h2
      cases h2

theorem attemptPass_ok (pc : Cell) (gs gs2 : GameState)
    (h : attemptPass pc gs = ⟨some gs2, true⟩) :
    gs2.board = gs.board ∧ gs2.moves = gs.moves ++ [⟨pc, -1, -1, false⟩] := by
  unfold attemptPass at h
  split_ifs at h
  · exact absurd (congrArg AttemptResult.valid h) (by simp)
  · have hgs := congrArg AttemptResult.gameState h
    injection hgs with hgs
    rw [← hgs]
    exact ⟨rfl, rfl⟩
  · exact absurd (congrArg AttemptResult.valid h) (by simp)

/-- C6 (amended): every position reachable by accepted operations has
`moves.length` equal to the number of **all** accepted actions (passes are
logged too), and its board is the fold of the logged moves over the empty
board of the constructed dimensions. -/
theorem reachable_board_fold (w h : Nat) (gs : GameState) (np t : Nat)
    (hr : ReachableCounts w h gs np t) :
    gs.moves.length = t ∧
      gs.board = gs.moves.foldl applyMove
        (List.replicate w (List.replicate h Cell.empty)) := by
  induction hr with
  | init b hb =>
    have hbe : b = List.replicate w (List.replicate h Cell.empty) := by
      unfold createBoard at hb
      split at hb
      · cases hb
      · injection hb with hb
        exact hb.symm
    exact ⟨rfl, hbe⟩
  | ply gs gs2 np t pc r c hstep hatt ih =>
    obtain ⟨hb, hm, hr0⟩ := attemptPly_ok pc r c gs gs2 hatt
    constructor
    · rw [hm, List.length_append, ih.1]
      rfl
    · rw [hm, hb, List.foldl_append, ← ih.2]
      show jsUpdate gs.board r c pc = applyMove gs.board ⟨pc, r, c, false⟩
      unfold applyMove
      rw [if_neg (by simp), if_neg (by simp; omega)]
  | remove gs gs2 np t r c hstep hatt ih =>
    obtain ⟨hb, hm, hr0⟩ := attemptRemove_ok r c gs gs2 hatt
    constructor
    · rw [hm, List.length_append, ih.1]
      rfl
    · rw [hm, hb, List.foldl_append, ← ih.2]
      show jsUpdate gs.board r c Cell.removed =
        applyMove gs.board ⟨Cell.black, r, c, true⟩
      unfold applyMove
      rw [if_pos (by simp)]
  | pass gs gs2 np t pc hstep hatt ih =>
    obtain ⟨hb, hm⟩ := attemptPass_ok pc gs gs2 hatt
    constructor
    · rw [hm, List.length_append, ih.1]
      rfl
    · rw [hm, hb, List.foldl_append, ← ih.2]
      show gs.board = applyMove gs.board ⟨pc, -1, -1, false⟩
      unfold applyMove
      rw [if_neg (by simp), if_pos (by simp)]

/-- C6 counterexample: after three accepted placements and one accepted pass
(3 non-pass actions), the reachable position logs 4 moves — `moves.length`
counts passes too, so it differs from the number of non-pass actions. -/
theorem reachable_moves_length_counterexample :
    ReachableCounts 15 15 gsOpenPass 3 4 ∧ gsOpenPass.moves.length ≠ 3 := by
  constructor
  · exact ReachableCounts.pass gsOpen3 gsOpenPass 3 3 Cell.white
      (ReachableCounts.ply gsOpen2 gsOpen3 2 2 Cell.black 8 7
        (ReachableCounts.ply gsOpen1 gsOpen2 1 1 Cell.white 6 7
          (ReachableCounts.ply gameStart gsOpen1 0 0 Cell.black 7 7
            (ReachableCounts.init emptyBoard15 (by decide))
            (by decide))
          (by decide))
        (by decide))
      (by decide)
  · decide

/-- C6 witness: the invariant applied to the reachable position after one
accepted placement. -/
theorem reachable_board_fold_witness :
    gsOpen1.moves.length = 1 ∧
      gsOpen1.board = gsOpen1.moves.foldl applyMove
        (List.replicate 15 (List.replicate 15 Cell.empty)) :=
  reachable_board_fold 15 15 gsOpen1 1 1
    (ReachableCounts.ply gameStart gsOpen1 0 0 Cell.black 7 7
      (ReachableCounts.init emptyBoard15 (by decide)) (by decide))

/-- C10 (amended): when the last logged move is a pass, White has no
earlier-ordered win (no White five-or-more and no Black overline), and Black's
board shows a double four — or a double three with no double four — then
`checkWin` for White throws a `TypeError` from the last-move retraction. -/
theorem checkWin_pass_retraction_throws (gs : GameState) (m : Move)
    (hlast : gs.moves.getLast? = some m) (hrow : m.row = -1)
    (h5 : checkIfFiveInARow Cell.white gs.board = false)
    (hov : checkOverline Cell.white gs.board = false)
    (hob : checkOverline Cell.black gs.board = false)
    (hd : blackMakesDoubleFour gs.board = true ∨
      (blackMakesDoubleThree gs.board = true ∧
        blackMakesDoubleFour gs.board = false)) :
    checkWin Cell.white gs = .error .typeError := by
  have hrm : removeLastMove gs = .error .typeError := by
    unfold removeLastMove
    rw [hlast]
    dsimp only
    rw [show writeCell gs.board m.row m.column Cell.empty = .error .typeError from by
      unfold writeCell
      rw [if_neg (by omega)]]
  unfold checkWin
  rw [if_neg (fun hc => Cell.noConfusion hc.1), if_pos rfl]
  rw [if_neg (by simp [h5, hov])]
  rw [if_neg (by simp [hob])]
  rcases hd with h4 | ⟨h3, h4f⟩
  · rw [if_pos h4, hrm]
  · rw [if_neg (by simp [h4f])]
    unfold whiteDoubleThreeCheck
    rw [if_pos h3, hrm]

set_option maxRecDepth 40000 in
/-- C10 counterexample: a position whose last logged move is a pass and whose
board holds a Black double four together with a White five — `checkWin` for
White returns the five-in-a-row win instead of throwing. -/
theorem checkWin_pass_retraction_counterexample :
    gsCrossWhiteFivePass.moves.getLast? = some whitePass ∧
      blackMakesDoubleFour gsCrossWhiteFivePass.board = true ∧
      checkWin Cell.white gsCrossWhiteFivePass =
        .ok ⟨true, "5 or more in a row for white."⟩ :=
  ⟨by decide, by decide, by decide⟩

set_option maxRecDepth 40000 in
/-- C10 witness: the cross board with only the Black double four and a pass
as last logged move makes `checkWin` for White throw. -/
theorem checkWin_pass_retraction_throws_witness :
    checkWin Cell.white gsCrossPass = .error .typeError :=
  checkWin_pass_retraction_throws gsCrossPass whitePass (by decide) (by decide)
    (by decide) (by decide) (by decide) (Or.inl (by decide))
